import Mathlib

/-!
Verification of the business-hours evaluation utility of Travel Agent Pro
(`src/frontend/src/hooks/useBackendHealth.ts`, class `BusinessHoursUtil`).

The TypeScript code parses a semi-structured opening-hours string into
minute intervals and decides whether an activity window is contained in one
of them.  We embed the relevant JavaScript semantics shallowly:

* the regex `(\d{1,2}):(\d{2})-(\d{1,2}):(\d{2})` applied with `String.match`
  (leftmost match with greedy backtracking on the one-or-two-digit groups)
  is modelled by `matchHM` / `matchRangeAt` / `findTimeRange`;
* `String.split(/[,\s]+/).filter(s => s.trim())` is modelled by `splitSegs`
  (maximal runs of non-separator characters, where a separator is a comma or
  a JavaScript `\s` whitespace character);
* JavaScript numbers on the values arising here are naturals, so minutes are
  `Nat`.
-/

namespace BusinessHoursUtil

/-- `interface TimeRange \x7b start: number; end: number \x7d` of the source.
The source field `end` is a Lean keyword, so it is called `stop` here. -/
structure TimeRange where
  start : Nat
  stop : Nat
deriving DecidableEq, Repr

/-- The `statusType: 'open' | 'closed' | 'unknown'` field of the source. -/
inductive StatusType where
  | open_
  | closed
  | unknown
deriving DecidableEq, Repr

/-- `interface BusinessHoursStatus` of the source: `isOpen` is the tri-state
boolean (`null` is `none`), `displayText` the UI string. -/
structure BusinessHoursStatus where
  isOpen : Option Bool
  displayText : String
  statusType : StatusType
deriving DecidableEq, Repr

/-- Numeric value of a decimal digit character (`parseInt` on one digit). -/
def digitVal (c : Char) : Nat := c.toNat - 48

/-- JavaScript `\s`: whitespace characters as defined for regular
expressions (ASCII whitespace, NBSP, and the Unicode space separators). -/
def isSpaceJS (c : Char) : Bool :=
  c == ' ' || c == '\t' || c == '\n' || c == '\r' ||
  c.toNat == 0x0B || c.toNat == 0x0C || c.toNat == 0xA0 ||
  c.toNat == 0x1680 || (0x2000 ≤ c.toNat && c.toNat ≤ 0x200A) ||
  c.toNat == 0x2028 || c.toNat == 0x2029 || c.toNat == 0x202F ||
  c.toNat == 0x205F || c.toNat == 0x3000 || c.toNat == 0xFEFF

/-- A character consumed by the split regex `[,\s]+`. -/
def isSep (c : Char) : Bool := c == ',' || isSpaceJS c

/-- One step of splitting a character list into maximal non-separator runs
(`String.split(/[,\s]+/)` followed by dropping empty pieces). -/
def splitStep (c : Char) (acc : List Char × List (List Char)) :
    List Char × List (List Char) :=
  if isSep c then
    if acc.1 = [] then ([], acc.2) else ([], acc.1 :: acc.2)
  else (c :: acc.1, acc.2)

/-- `raw.split(/[,\s]+/).filter(s => s.trim())` on the character list:
the maximal runs of non-separator characters, in order. -/
def splitSegs (l : List Char) : List (List Char) :=
  let r := l.foldr splitStep ([], [])
  if r.1 = [] then r.2 else r.1 :: r.2

/-- Match the regex fragment `(\d{1,2}):(\d{2})` at the head of the list,
greedy on the hour group (two digits tried before one, as the JavaScript
engine does); returns hour value, minute value and the remaining input. -/
def matchHM (cs : List Char) : Option (Nat × Nat × List Char) :=
  match cs with
  | a :: b :: c :: d :: e :: rest =>
    if a.isDigit && b.isDigit && c == ':' && d.isDigit && e.isDigit then
      some (10 * digitVal a + digitVal b, 10 * digitVal d + digitVal e, rest)
    else if a.isDigit && b == ':' && c.isDigit && d.isDigit then
      some (digitVal a, 10 * digitVal c + digitVal d, e :: rest)
    else none
  | [a, b, c, d] =>
    if a.isDigit && b == ':' && c.isDigit && d.isDigit then
      some (digitVal a, 10 * digitVal c + digitVal d, [])
    else none
  | _ => none

/-- Match the full regex `(\d{1,2}):(\d{2})-(\d{1,2}):(\d{2})` at the head of
the list, returning the four captured numeric values. -/
def matchRangeAt (cs : List Char) : Option (Nat × Nat × Nat × Nat) :=
  match matchHM cs with
  | some (h1, m1, rest) =>
    match rest with
    | '-' :: rest2 =>
      match matchHM rest2 with
      | some (h2, m2, _) => some (h1, m1, h2, m2)
      | none => none
    | _ => none
  | none => none

/-- `segment.match(/(\d{1,2}):(\d{2})-(\d{1,2}):(\d{2})/)`: the leftmost
position at which the pattern matches, scanning left to right. -/
def findTimeRange : List Char → Option (Nat × Nat × Nat × Nat)
  | [] => none
  | c :: cs =>
    match matchRangeAt (c :: cs) with
    | some r => some r
    | none => findTimeRange cs

/-- `timeStr.match(/(\d{1,2}):(\d{2})/)`: leftmost match of the bare
hour-minute pattern. -/
def findHM : List Char → Option (Nat × Nat)
  | [] => none
  | c :: cs =>
    match matchHM (c :: cs) with
    | some (h, m, _) => some (h, m)
    | none => findHM cs

/-- The body of the `for` loop of `parseOpenHours` on one segment: the
matched boundaries in minutes, with 24*60 added to the end when it is
smaller than the start (overnight span), `none` when the segment does not
match the pattern. -/
def segToRange (seg : List Char) : Option TimeRange :=
  match findTimeRange seg with
  | none => none
  | some (startHour, startMin, endHour, endMin) =>
    let startMinutes := startHour * 60 + startMin
    let endMinutes := endHour * 60 + endMin
    let endMinutes2 := if endMinutes < startMinutes
      then endMinutes + 24 * 60 else endMinutes
    some { start := startMinutes, stop := endMinutes2 }

/-- `static parseOpenHours(openHoursRaw: string): TimeRange[]` — split the
raw string into segments and collect (in order, by pushing onto the result
array) the segments that match the time-range pattern. -/
def parseOpenHours (openHoursRaw : String) : List TimeRange :=
  if openHoursRaw = "" then []
  else
    (splitSegs openHoursRaw.toList).foldl
      (fun acc seg =>
        match segToRange seg with
        | some r => acc ++ [r]
        | none => acc) []

/-- `static timeToMinutes(timeStr: string): number` — minutes since
midnight of the first `(\d{1,2}):(\d{2})` match, `0` when there is none. -/
def timeToMinutes (timeStr : String) : Nat :=
  match findHM timeStr.toList with
  | none => 0
  | some (h, m) => h * 60 + m

/-- `static isActivityOpen`: `none` when the raw string is empty or parses
to no interval, otherwise whether some parsed interval contains the whole
activity window. -/
def isActivityOpen (activityStart activityEnd openHoursRaw : String) :
    Option Bool :=
  if openHoursRaw = "" then none
  else
    let openRanges := parseOpenHours openHoursRaw
    if openRanges = [] then none
    else
      let actStart := timeToMinutes activityStart
      let actEnd := timeToMinutes activityEnd
      if openRanges.any (fun range =>
          range.start ≤ actStart && actEnd ≤ range.stop)
      then some true else some false

/-- The fallback of `getBusinessStatus` when no usable raw hours string is
present: decide from the backend flag (`boolean | null`, itself optional). -/
def backendStatus (backendOpenOk : Option (Option Bool))
    (closedReason : Option String) : BusinessHoursStatus :=
  if backendOpenOk = some (some false) then
    { isOpen := some false
      displayText := "已关闭: " ++
        (match closedReason with
         | some r => if r = "" then "请确认营业时间" else r
         | none => "请确认营业时间")
      statusType := .closed }
  else if backendOpenOk = some (some true) then
    { isOpen := some true
      displayText := "营业中: 全天开放"
      statusType := .open_ }
  else
    { isOpen := none
      displayText := "营业时间: 未知"
      statusType := .unknown }

/-- `static getBusinessStatus`: a present, non-empty (JavaScript-truthy)
raw hours string delegates to `isActivityOpen`; otherwise the backend flag
decides. -/
def getBusinessStatus (activityStart activityEnd : String)
    (openHoursRaw : Option String) (backendOpenOk : Option (Option Bool))
    (closedReason : Option String) : BusinessHoursStatus :=
  match openHoursRaw with
  | some raw =>
    if raw = "" then backendStatus backendOpenOk closedReason
    else
      match isActivityOpen activityStart activityEnd raw with
      | some true =>
        { isOpen := some true
          displayText := "营业中: " ++ raw
          statusType := .open_ }
      | some false =>
        { isOpen := some false
          displayText := "已关闭: " ++ raw
          statusType := .closed }
      | none =>
        { isOpen := none
          displayText := "营业时间: " ++ raw
          statusType := .unknown }
  | none => backendStatus backendOpenOk closedReason

end BusinessHoursUtil

namespace BusinessHoursUtil

/-- The `for` loop of `parseOpenHours`, which pushes each matched range onto
the result array, collects exactly the segments on which `segToRange`
succeeds. -/
theorem foldl_push_eq_filterMap (l : List (List Char)) (acc : List TimeRange) :
    l.foldl (fun acc seg =>
      match segToRange seg with
      | some r => acc ++ [r]
      | none => acc) acc = acc ++ l.filterMap segToRange := by
  induction l generalizing acc with
  | nil => simp
  | cons seg rest ih =>
    simp only [List.foldl_cons, List.filterMap_cons]
    cases h : segToRange seg with
    | none => simp [h, ih]
    | some r => simp [h, ih]

/-- `parseOpenHours` is the per-segment parse collected over the split of
the input, in segment order. -/
theorem parseOpenHours_eq (s : String) :
    parseOpenHours s = (splitSegs s.toList).filterMap segToRange := by
  unfold parseOpenHours
  split
  · next h => subst h; rfl
  · simpa using foldl_push_eq_filterMap (splitSegs s.toList) []

/-- On a five-character list shaped like `HH:MM` with arbitrary digits, the
hour-minute matcher succeeds with the plain decimal values, with no bound on
their magnitude. -/
theorem matchHM_canonical (a b c d : Char)
    (ha : a.isDigit) (hb : b.isDigit) (hc : c.isDigit) (hd : d.isDigit) :
    matchHM [a, b, ':', c, d] =
      some (10 * digitVal a + digitVal b, 10 * digitVal c + digitVal d, []) := by
  simp [matchHM, ha, hb, hc, hd]

/-- Leftmost search of the hour-minute pattern on a canonical `HH:MM` list
succeeds at position zero. -/
theorem findHM_canonical (a b c d : Char)
    (ha : a.isDigit) (hb : b.isDigit) (hc : c.isDigit) (hd : d.isDigit) :
    findHM [a, b, ':', c, d] =
      some (10 * digitVal a + digitVal b, 10 * digitVal c + digitVal d) := by
  simp [findHM, matchHM_canonical a b c d ha hb hc hd]

/-- When the raw string is non-empty and parses to at least one interval,
`isActivityOpen` is the containment test over the parsed intervals. -/
theorem isActivityOpen_eq (aS aE raw : String) (h1 : raw ≠ "")
    (h2 : parseOpenHours raw ≠ []) :
    isActivityOpen aS aE raw =
      some ((parseOpenHours raw).any (fun r =>
        r.start ≤ timeToMinutes aS && timeToMinutes aE ≤ r.stop)) := by
  unfold isActivityOpen
  simp only [if_neg h1, if_neg h2]
  split <;> simp_all

/-- C1: `isActivityOpen` returns `none` (unknown) when the raw hours string
is empty or parses to zero intervals; otherwise it returns `some true` iff
some single parsed interval contains the whole activity window (start at or
after the interval start and end at or before the interval end), and
`some false` otherwise; in particular the window 11:30-14:30 against
"09:00-12:00,14:00-18:00" is `false` even though the union of the two
intervals covers it. -/
theorem isActivityOpen_containment_spec :
    (∀ aS aE raw : String,
      ((raw = "" ∨ parseOpenHours raw = []) → isActivityOpen aS aE raw = none) ∧
      (raw ≠ "" → parseOpenHours raw ≠ [] →
        ((isActivityOpen aS aE raw = some true ↔
            ∃ r ∈ parseOpenHours raw,
              r.start ≤ timeToMinutes aS ∧ timeToMinutes aE ≤ r.stop) ∧
         (isActivityOpen aS aE raw = some false ↔
            ¬ ∃ r ∈ parseOpenHours raw,
              r.start ≤ timeToMinutes aS ∧ timeToMinutes aE ≤ r.stop)))) ∧
    isActivityOpen "11:30" "14:30" "09:00-12:00,14:00-18:00" = some false := by
  refine ⟨fun aS aE raw => ⟨?_, ?_⟩, by decide⟩
  · rintro (h | h) <;> simp [isActivityOpen, h]
  · intro h1 h2
    rw [isActivityOpen_eq aS aE raw h1 h2]
    constructor
    · simp [List.any_eq_true]
    · simp [List.any_eq_false]

/-- Witness for C1 at a concrete input. -/
theorem isActivityOpen_containment_spec_witness :
    isActivityOpen "10:00" "11:00" "09:00-18:00" = some true ↔
      ∃ r ∈ parseOpenHours "09:00-18:00",
        r.start ≤ timeToMinutes "10:00" ∧ timeToMinutes "11:00" ≤ r.stop :=
  ((isActivityOpen_containment_spec.1 "10:00" "11:00" "09:00-18:00").2
    (by decide) (by decide)).1

/-- C2: every segment on which the time-range pattern matches yields the
interval of the minute conversions of its boundaries, with 1440 added to the
end when the parsed end is smaller than the parsed start; and
`parseOpenHours "22:00-02:00"` is exactly the single interval
1320-1560. -/
theorem parseOpenHours_overnight_spec :
    (∀ (seg : List Char) (h1 m1 h2 m2 : Nat),
      findTimeRange seg = some (h1, m1, h2, m2) →
      segToRange seg = some ⟨h1 * 60 + m1,
        if h2 * 60 + m2 < h1 * 60 + m1 then h2 * 60 + m2 + 1440
        else h2 * 60 + m2⟩) ∧
    parseOpenHours "22:00-02:00" = [⟨1320, 1560⟩] := by
  refine ⟨fun seg h1 m1 h2 m2 h => ?_, by decide⟩
  simp [segToRange, h]

/-- Witness for C2 at a concrete segment. -/
theorem parseOpenHours_overnight_spec_witness :
    segToRange "22:00-02:00".toList =
      some ⟨22 * 60 + 0,
        if 2 * 60 + 0 < 22 * 60 + 0 then 2 * 60 + 0 + 1440 else 2 * 60 + 0⟩ :=
  parseOpenHours_overnight_spec.1 "22:00-02:00".toList 22 0 2 0 (by decide)

/-- C3: with a present, non-empty raw hours string, `getBusinessStatus` is
independent of the backend flag and the closed reason, and its result is
exactly the mapping of `isActivityOpen`: `some true` to open, `some false`
to closed, `none` to unknown, each display built from the raw string; in
particular the claimed concrete call is open despite a false backend flag
and a closed reason. -/
theorem getBusinessStatus_local_precedence :
    (∀ (aS aE raw : String) (b b' : Option (Option Bool)) (r r' : Option String),
      raw ≠ "" →
      (getBusinessStatus aS aE (some raw) b r =
        getBusinessStatus aS aE (some raw) b' r') ∧
      (isActivityOpen aS aE raw = some true →
        getBusinessStatus aS aE (some raw) b r =
          ⟨some true, "营业中: " ++ raw, .open_⟩) ∧
      (isActivityOpen aS aE raw = some false →
        getBusinessStatus aS aE (some raw) b r =
          ⟨some false, "已关闭: " ++ raw, .closed⟩) ∧
      (isActivityOpen aS aE raw = none →
        getBusinessStatus aS aE (some raw) b r =
          ⟨none, "营业时间: " ++ raw, .unknown⟩)) ∧
    (getBusinessStatus "10:00" "11:00" (some "09:00-18:00")
        (some (some false)) (some "closed for holiday")).statusType = .open_ := by
  refine ⟨fun aS aE raw b b' r r' hraw => ⟨?_, ?_, ?_, ?_⟩, by decide⟩
  all_goals simp only [getBusinessStatus, if_neg hraw]
  · intro h; rw [h]
  · intro h; rw [h]
  · intro h; rw [h]

/-- Witness for C3 at concrete inputs. -/
theorem getBusinessStatus_local_precedence_witness :
    getBusinessStatus "10:00" "11:00" (some "09:00-18:00")
        (some (some false)) (some "x") =
      getBusinessStatus "10:00" "11:00" (some "09:00-18:00")
        (some (some true)) none :=
  (getBusinessStatus_local_precedence.1 "10:00" "11:00" "09:00-18:00"
    (some (some false)) (some (some true)) (some "x") none (by decide)).1

/-- C4 counterexample: the degenerate segment "10:00-10:00" parses to an
interval with end equal to start, refuting strict `end > start`; and
"99:00-00:00" (the regex admits hours up to 99) parses to an interval with
end strictly below start even after the overnight normalization. -/
theorem parseOpenHours_gt_counterexample :
    ¬ (∀ r ∈ parseOpenHours "10:00-10:00", r.start < r.stop) ∧
    ¬ (∀ r ∈ parseOpenHours "99:00-00:00", r.start ≤ r.stop) := by decide

/-- C4 amended: every interval returned by `parseOpenHours` whose start is
below 1440 minutes satisfies `end ≥ start` after normalization (strictness
fails for degenerate equal-boundary segments, and starts of 1440 or more
can even invert the order). -/
theorem parseOpenHours_start_le_stop :
    ∀ (s : String), ∀ r ∈ parseOpenHours s, r.start < 1440 → r.start ≤ r.stop := by
  intro s r hr hlt
  rw [parseOpenHours_eq] at hr
  obtain ⟨seg, -, hseg⟩ := List.mem_filterMap.mp hr
  unfold segToRange at hseg
  rcases hfind : findTimeRange seg with _ | ⟨h1, m1, h2, m2⟩
  · simp [hfind] at hseg
  · rw [hfind] at hseg
    simp only [Option.some.injEq] at hseg
    obtain ⟨rs, re⟩ := r
    simp only [TimeRange.mk.injEq] at hseg
    simp only at hlt ⊢
    split_ifs at hseg with hov <;> omega

/-- Witness for the amended C4 at a concrete input. -/
theorem parseOpenHours_start_le_stop_witness :
    (⟨600, 1080⟩ : TimeRange).start ≤ (⟨600, 1080⟩ : TimeRange).stop :=
  parseOpenHours_start_le_stop "10:00-18:00" ⟨600, 1080⟩ (by decide) (by decide)

/-- C5: `parseOpenHours` splits its input on maximal runs of
whitespace/comma characters, parses each segment independently and returns
the matches in segment order; the comma-separated and the space-separated
two-segment examples yield the claimed interval lists. -/
theorem parseOpenHours_split_spec :
    (∀ s : String,
      parseOpenHours s = (splitSegs s.toList).filterMap segToRange) ∧
    parseOpenHours "09:00-12:00,14:00-18:00" = [⟨540, 720⟩, ⟨840, 1080⟩] ∧
    parseOpenHours "12:00-14:00 18:00-22:00" = [⟨720, 840⟩, ⟨1080, 1320⟩] :=
  ⟨parseOpenHours_eq, by decide, by decide⟩

/-- C6: with the raw hours string absent or empty, a false backend flag
gives closed (display carrying the supplied reason, or the generic prompt
when the reason is absent or empty), a true flag gives the generic open
status, and an absent or null flag gives the generic unknown status. -/
theorem getBusinessStatus_backend_fallback :
    ∀ (aS aE : String) (rawOpt : Option String)
      (b : Option (Option Bool)) (r : Option String),
      (rawOpt = none ∨ rawOpt = some "") →
      ((b = some (some false) →
        (getBusinessStatus aS aE rawOpt b r).statusType = .closed ∧
        (getBusinessStatus aS aE rawOpt b r).isOpen = some false ∧
        (∀ s : String, r = some s → s ≠ "" →
          (getBusinessStatus aS aE rawOpt b r).displayText = "已关闭: " ++ s) ∧
        ((r = none ∨ r = some "") →
          (getBusinessStatus aS aE rawOpt b r).displayText = "已关闭: 请确认营业时间")) ∧
      (b = some (some true) →
        getBusinessStatus aS aE rawOpt b r =
          ⟨some true, "营业中: 全天开放", .open_⟩) ∧
      ((b = none ∨ b = some none) →
        getBusinessStatus aS aE rawOpt b r =
          ⟨none, "营业时间: 未知", .unknown⟩)) := by
  intro aS aE rawOpt b r hraw
  have hred : getBusinessStatus aS aE rawOpt b r = backendStatus b r := by
    rcases hraw with h | h <;> subst h <;> rfl
  rw [hred]
  refine ⟨fun hb => ?_, fun hb => ?_, fun hb => ?_⟩
  · subst hb
    refine ⟨rfl, rfl, fun s hs hne => ?_, fun hr => ?_⟩
    · subst hs; simp [backendStatus, hne]
    · rcases hr with h | h <;> subst h <;> rfl
  · subst hb; rfl
  · rcases hb with h | h <;> subst h <;> rfl

/-- Witness for C6 at a concrete input. -/
theorem getBusinessStatus_backend_fallback_witness :
    getBusinessStatus "10:00" "11:00" none (some (some true)) none =
      ⟨some true, "营业中: 全天开放", .open_⟩ :=
  ((getBusinessStatus_backend_fallback "10:00" "11:00" none
    (some (some true)) none (Or.inl rfl)).2.1) rfl

/-- C7: `timeToMinutes` converts a well-formed two-digit-hour time string
to hour times sixty plus minute, and returns 0 whenever the pattern does
not occur in the input — so 0 is the result both for midnight "00:00" and
for every unparseable string such as "noon". -/
theorem timeToMinutes_spec :
    (∀ a b c d : Char, a.isDigit → b.isDigit → c.isDigit → d.isDigit →
      timeToMinutes (String.mk [a, b, ':', c, d]) =
        (10 * digitVal a + digitVal b) * 60 + (10 * digitVal c + digitVal d)) ∧
    (∀ s : String, findHM s.toList = none → timeToMinutes s = 0) ∧
    timeToMinutes "00:00" = 0 ∧ timeToMinutes "noon" = 0 := by
  refine ⟨fun a b c d ha hb hc hd => ?_, fun s h => ?_, by decide, by decide⟩
  · unfold timeToMinutes
    rw [show (String.mk [a, b, ':', c, d]).toList = [a, b, ':', c, d] from rfl,
      findHM_canonical a b c d ha hb hc hd]
  · unfold timeToMinutes; rw [h]

/-- Witness for C7 at concrete inputs. -/
theorem timeToMinutes_spec_witness :
    timeToMinutes (String.mk ['1', '2', ':', '3', '4']) =
      (10 * digitVal '1' + digitVal '2') * 60 + (10 * digitVal '3' + digitVal '4') ∧
    timeToMinutes "xx" = 0 :=
  ⟨timeToMinutes_spec.1 '1' '2' '3' '4' (by decide) (by decide) (by decide) (by decide),
   timeToMinutes_spec.2.1 "xx" (by decide)⟩

/-- C8: `parseOpenHours` is a total function (it is a Lean `def`, so it can
raise nothing); the malformed input "garbage" and the empty input both
yield the empty list, and a segment on which the pattern fails is skipped
without affecting the result of the surrounding segments. -/
theorem parseOpenHours_never_fails :
    parseOpenHours "garbage" = [] ∧ parseOpenHours "" = [] ∧
    (∀ (l1 l2 : List (List Char)) (seg : List Char),
      segToRange seg = none →
      (l1 ++ seg :: l2).filterMap segToRange = (l1 ++ l2).filterMap segToRange) := by
  refine ⟨by decide, rfl, fun l1 l2 seg h => ?_⟩
  simp [List.filterMap_append, List.filterMap_cons, h]

/-- Witness for C8 at a concrete segment list. -/
theorem parseOpenHours_never_fails_witness :
    ([['0', '9', ':', '0', '0', '-', '1', '2', ':', '0', '0']] ++
        ['g'] :: [['1', '4', ':', '0', '0', '-', '1', '8', ':', '0', '0']]).filterMap
        segToRange =
      ([['0', '9', ':', '0', '0', '-', '1', '2', ':', '0', '0']] ++
        [['1', '4', ':', '0', '0', '-', '1', '8', ':', '0', '0']]).filterMap
        segToRange :=
  parseOpenHours_never_fails.2.2 _ _ ['g'] (by decide)

/-- C9: `isActivityOpen` depends on the activity boundaries only through
their raw minutes-since-midnight values (no midnight normalization of the
window); against the overnight hours "22:00-02:00" (interval 1320-1560) the
after-midnight window 01:00-02:00 is `false`, while 23:00-01:00 is `true`
because its end converts to 60 which still lies below 1560. -/
theorem isActivityOpen_no_midnight_normalization :
    (∀ aS aE aS2 aE2 raw : String,
      timeToMinutes aS = timeToMinutes aS2 →
      timeToMinutes aE = timeToMinutes aE2 →
      isActivityOpen aS aE raw = isActivityOpen aS2 aE2 raw) ∧
    parseOpenHours "22:00-02:00" = [⟨1320, 1560⟩] ∧
    isActivityOpen "01:00" "02:00" "22:00-02:00" = some false ∧
    isActivityOpen "23:00" "01:00" "22:00-02:00" = some true := by
  refine ⟨fun aS aE aS2 aE2 raw h1 h2 => ?_, by decide, by decide, by decide⟩
  unfold isActivityOpen
  rw [h1, h2]

/-- Witness for C9 at concrete inputs. -/
theorem isActivityOpen_no_midnight_normalization_witness :
    isActivityOpen "01:00" "02:00" "22:00-02:00" =
      isActivityOpen "1:00" "2:00" "22:00-02:00" :=
  isActivityOpen_no_midnight_normalization.1 "01:00" "02:00" "1:00" "2:00"
    "22:00-02:00" (by decide) (by decide)

/-- C10: neither parser validates hour or minute magnitudes: any digits
matching the pattern are converted as hour times sixty plus minute, so
"25:00-26:00" parses to the interval 1500-1560 and `timeToMinutes "12:99"`
is 819. -/
theorem no_range_validation :
    parseOpenHours "25:00-26:00" = [⟨1500, 1560⟩] ∧
    timeToMinutes "12:99" = 819 ∧
    (∀ a b c d : Char, a.isDigit → b.isDigit → c.isDigit → d.isDigit →
      findHM [a, b, ':', c, d] =
        some (10 * digitVal a + digitVal b, 10 * digitVal c + digitVal d)) :=
  ⟨by decide, by decide, findHM_canonical⟩

/-- Witness for C10 at concrete digits. -/
theorem no_range_validation_witness :
    findHM ['2', '5', ':', '9', '9'] =
      some (10 * digitVal '2' + digitVal '5', 10 * digitVal '9' + digitVal '9') :=
  no_range_validation.2.2 '2' '5' '9' '9' (by decide) (by decide) (by decide) (by decide)

end BusinessHoursUtil
